import Mathlib

/-!
Shallow embedding of the `_topology` extension module of LensTools
(src/lenstools/external/_topology.c) and of the four computational kernels it
calls (declared in peaks.h, differentials.h, minkowski.h and azimuth.h, whose
implementations are not part of this repository and are therefore modelled
from the specification).

Machine doubles are modelled as exact rationals; the numerical square root of
libm and the Dirac-delta discretization of the Minkowski kernel (left open by
the specification) are taken as function parameters.
-/

set_option maxRecDepth 4000
set_option linter.unnecessarySimpa false

attribute [local semireducible] Rat.add Rat.sub Rat.mul Rat.inv

instance {ε α : Type} [DecidableEq ε] [DecidableEq α] : DecidableEq (Except ε α)
  | Except.error e, Except.error f =>
      if h : e = f then isTrue (by rw [h]) else isFalse (by intro hc; injection hc; contradiction)
  | Except.error _, Except.ok _ => isFalse (by intro h; cases h)
  | Except.ok _, Except.error _ => isFalse (by intro h; cases h)
  | Except.ok a, Except.ok b =>
      if h : a = b then isTrue (by rw [h]) else isFalse (by intro hc; injection hc; contradiction)

/-- A numpy-style array: a shape together with flat row-major data.  This is
what `PyArray_FROM_OTF(..., NPY_IN_ARRAY)` hands to the wrapper on success. -/
structure NpArray (α : Type) where
  shape : List Nat
  data : List α
deriving DecidableEq, Repr

/-- PyArray_DIM(a, k): the k-th entry of the shape. -/
def dim {α : Type} (a : NpArray α) (k : Nat) : Nat := a.shape.getD k 0

/-- The possible failure causes of a `_topology` entry point, mirroring the
distinct failure branches of the C wrapper: a failed `PyArray_FROM_OTF`
coercion, a failed output allocation (`PyArray_ZEROS`), or a nonzero return
code from an azimuthal kernel. -/
inductive TopErr where
  | coercionFailure
  | allocationFailure
  | kernelFailure
deriving DecidableEq, Repr

/-- The mask argument of peakCount/minkowski: `Py_None` (no mask), or an
object whose `PyArray_FROM_OTF` coercion either failed (`arr none`) or
produced a boolean array. -/
inductive MaskArg where
  | pyNone
  | arr (m : Option (NpArray Bool))
deriving DecidableEq, Repr

/-- Lift an optional mask array to a `MaskArg` whose coercion succeeded. -/
def maskArgOf : Option (NpArray Bool) → MaskArg
  | none => MaskArg.pyNone
  | some m => MaskArg.arr (some m)

/-- PyArray_ZEROS(1, {n}, NPY_DOUBLE, 0): fails when the requested length is
negative (numpy rejects negative dimensions), otherwise a zero-filled
double vector. -/
def pyZeros (n : Int) : Option (List ℚ) :=
  if n < 0 then none else some (List.replicate n.toNat 0)

/-- PyArray_ZEROS(1, {n}, NPY_LONG, 0): same, for a signed-integer vector. -/
def pyZerosInt (n : Int) : Option (List Int) :=
  if n < 0 then none else some (List.replicate n.toNat 0)

/-- Read a 2D double buffer at row-major position i*N+j, as the C kernels do
through raw pointers (an out-of-range read is modelled as 0). -/
def at2fn (a : NpArray ℚ) (N : Nat) : Nat → Nat → ℚ :=
  fun i j => a.data.getD (i * N + j) 0

/-- The mask pointer handed to the kernels: reading the boolean buffer at
row-major position i*N+j. -/
def peakMaskFn (mask_array : Option (NpArray Bool)) (Nside : Nat) :
    Option (Nat → Nat → Bool) :=
  mask_array.map fun m => fun i j => m.data.getD (i * Nside + j) false

/-- Add `g b` to the b-th entry of a list, the index starting at `b0`; this is
how the kernels accumulate into the caller-provided output buffers. -/
def mapFrom {α β : Type} (g : Nat → α → β) : Nat → List α → List β
  | _, [] => []
  | b, v :: rest => g b v :: mapFrom g (b + 1) rest

theorem length_mapFrom {α β : Type} (g : Nat → α → β) :
    ∀ (b : Nat) (l : List α), (mapFrom g b l).length = l.length := by
  intro b l
  induction l generalizing b with
  | nil => rfl
  | cons v rest ih => simp [mapFrom, ih]

theorem getD_mapFrom {α β : Type} (g : Nat → α → β) :
    ∀ (b k : Nat) (l : List α) (d : α) (e : β), k < l.length →
      (mapFrom g b l).getD k e = g (b + k) (l.getD k d) := by
  intro b k l
  induction l generalizing b k with
  | nil => intro d e h; simp at h
  | cons v rest ih =>
      intro d e h
      cases k with
      | zero => simp [mapFrom]
      | succ k =>
          simp only [mapFrom, List.getD_cons_succ]
          rw [ih (b + 1) k d e (by simpa using h)]
          ring_nf

theorem getD_replicate_false : ∀ (L n : Nat),
    (List.replicate L false).getD n false = false := by
  intro L
  induction L with
  | zero => intro n; simp [List.getD]
  | succ L ih =>
      intro n
      cases n with
      | zero => rfl
      | succ n => simpa [List.replicate, List.getD] using ih n

theorem getD_replicate_zero : ∀ (L n : Nat),
    (List.replicate L (0 : ℚ)).getD n 0 = 0 := by
  intro L
  induction L with
  | zero => intro n; simp [List.getD]
  | succ L ih =>
      intro n
      cases n with
      | zero => rfl
      | succ n => simpa [List.replicate, List.getD] using ih n

theorem getD_replicate_zero_int : ∀ (L n : Nat),
    (List.replicate L (0 : Int)).getD n 0 = 0 := by
  intro L
  induction L with
  | zero => intro n; simp [List.getD]
  | succ L ih =>
      intro n
      cases n with
      | zero => rfl
      | succ n => simpa [List.replicate, List.getD] using ih n

/-- All row-major grid positions of an N×N map. -/
def gridPoints (N : Nat) : List (Nat × Nat) :=
  (List.range N).product (List.range N)

/-- Validity of a sample under an optional mask: no mask means every sample
is valid; a mask marks excluded samples with `true`. -/
def maskValid : Option (Nat → Nat → Bool) → (Nat → Nat → Bool)
  | none => fun _ _ => true
  | some m => fun i j => !(m i j)

/-- Membership of a value in the half-open bin [lo, hi). -/
def inBin (lo hi v : ℚ) : Bool := decide (lo ≤ v) && decide (v < hi)

/-- The eight neighbour offsets of a grid sample. -/
def nbhd : List (Int × Int) :=
  [(-1, -1), (-1, 0), (-1, 1), (0, -1), (0, 1), (1, -1), (1, 0), (1, 1)]

/-- Whether an integer coordinate lies inside [0, N). -/
def inGrid (N : Nat) (x : Int) : Bool := decide (0 ≤ x) && decide (x < (N : Int))

/-- Modelled from the spec: a sample is a peak iff it is valid and strictly
greater than every in-bounds, non-excluded neighbour (neighbours outside the
grid or excluded by the mask are simply not compared). -/
def isPeak (f : Nat → Nat → ℚ) (valid : Nat → Nat → Bool) (N i j : Nat) : Bool :=
  valid i j &&
  nbhd.all fun d =>
    let i2 : Int := (i : Int) + d.1
    let j2 : Int := (j : Int) + d.2
    if inGrid N i2 && inGrid N j2 then
      !(valid i2.toNat j2.toNat) || decide (f i2.toNat j2.toNat < f i j)
    else true

/-- Modelled from the spec: the number of peaks whose sigma-normalized value
falls in the half-open bin [thr b, thr (b+1)). -/
def peakBinCount (f : Nat → Nat → ℚ) (valid : Nat → Nat → Bool) (N : Nat)
    (sigma : ℚ) (thr : Nat → ℚ) (b : Nat) : Nat :=
  (gridPoints N).countP fun p =>
    isPeak f valid N p.1 p.2 && inBin (thr b) (thr (b + 1)) (f p.1 p.2 / sigma)

/-- Modelled from the spec: the `peak_count` kernel declared in peaks.h (its
implementation is not in src/).  It increments, into the caller-provided
zero-filled output buffer, the count of the threshold bin containing each
peak's sigma-normalized value; values outside every bin are dropped. -/
def peak_count (f : Nat → Nat → ℚ) (mask : Option (Nat → Nat → Bool))
    (N : Nat) (sigma : ℚ) (thr : Nat → ℚ) (out : List ℚ) : List ℚ :=
  mapFrom (fun b v => v + (peakBinCount f (maskValid mask) N sigma thr b : ℚ)) 0 out

/-- Body of `_topology_peakCount` after the argument coercions (lines 104-147
of _topology.c): the grid side is the first dimension of the map, the number
of bin edges is the first dimension of the thresholds array, the output is a
zero-filled vector of length Nthreshold-1 handed to the kernel. -/
def peakCount_run (map_array : NpArray ℚ) (mask_array : Option (NpArray Bool))
    (thresholds_array : NpArray ℚ) (sigma : ℚ) : Except TopErr (List ℚ) :=
  let Nside := dim map_array 0
  let Nthreshold := dim thresholds_array 0
  match pyZeros ((Nthreshold : Int) - 1) with
  | none => Except.error TopErr.allocationFailure
  | some peaks0 =>
      Except.ok (peak_count (at2fn map_array Nside)
        (peakMaskFn mask_array Nside) Nside sigma
        (fun k => thresholds_array.data.getD k 0) peaks0)

/-- Shallow embedding of `_topology_peakCount` (lines 61-148 of _topology.c).
The `Option` inputs are the results of the `PyArray_FROM_OTF` coercions
(`none` means the coercion failed); the C checks the map and thresholds
coercions first, then the mask. -/
def peakCount_wrapper (map? : Option (NpArray ℚ)) (maskArg : MaskArg)
    (thresholds? : Option (NpArray ℚ)) (sigma : ℚ) : Except TopErr (List ℚ) :=
  match map?, thresholds? with
  | some map_array, some thresholds_array =>
      match maskArg with
      | MaskArg.arr none => Except.error TopErr.coercionFailure
      | MaskArg.pyNone => peakCount_run map_array none thresholds_array sigma
      | MaskArg.arr (some m) => peakCount_run map_array (some m) thresholds_array sigma
  | _, _ => Except.error TopErr.coercionFailure

/-- Periodic wraparound of an integer coordinate onto [0, N). -/
def pwrap (N : Nat) (x : Int) : Nat := (x % (N : Int)).toNat

/-- Read a field at a periodically wrapped offset from (i, j). -/
def fW (f : Nat → Nat → ℚ) (N : Nat) (i j : Nat) (di dj : Int) : ℚ :=
  f (pwrap N ((i : Int) + di)) (pwrap N ((j : Int) + dj))

/-- Modelled from the spec: the `gradient_xy` kernel of differentials.h (not
in src/): centered differences `(field[i+1,j]-field[i-1,j])/2` along each
axis.  The spec leaves the boundary convention open (one-sided or periodic);
periodic wraparound is used here, consistently with `hessian`. -/
def gradient_xy (f : Nat → Nat → ℚ) (N : Nat) : List ℚ × List ℚ :=
  ( (gridPoints N).map fun p => (fW f N p.1 p.2 1 0 - fW f N p.1 p.2 (-1) 0) / 2,
    (gridPoints N).map fun p => (fW f N p.1 p.2 0 1 - fW f N p.1 p.2 0 (-1)) / 2 )

/-- Modelled from the spec: the `hessian` kernel of differentials.h (not in
src/): second-order centered differences with the same (periodic) boundary
convention as `gradient_xy`. -/
def hessian (f : Nat → Nat → ℚ) (N : Nat) : List ℚ × List ℚ × List ℚ :=
  ( (gridPoints N).map fun p =>
      fW f N p.1 p.2 1 0 - 2 * f p.1 p.2 + fW f N p.1 p.2 (-1) 0,
    (gridPoints N).map fun p =>
      fW f N p.1 p.2 0 1 - 2 * f p.1 p.2 + fW f N p.1 p.2 0 (-1),
    (gridPoints N).map fun p =>
      (fW f N p.1 p.2 1 1 - fW f N p.1 p.2 1 (-1) - fW f N p.1 p.2 (-1) 1 +
        fW f N p.1 p.2 (-1) (-1)) / 4 )

/-- Shallow embedding of `_topology_gradient` (lines 151-215 of _topology.c):
the grid side is the first dimension of the map; the two outputs are freshly
allocated Nside x Nside arrays filled by the kernel.  `PyArray_SimpleNew` of a
nonnegative size and `PyTuple_SetItem` on a fresh 2-tuple are modelled as
always succeeding. -/
def gradient_wrapper (map? : Option (NpArray ℚ)) :
    Except TopErr (NpArray ℚ × NpArray ℚ) :=
  match map? with
  | none => Except.error TopErr.coercionFailure
  | some map_array =>
      let Nside := dim map_array 0
      let g := gradient_xy (at2fn map_array Nside) Nside
      Except.ok (⟨[Nside, Nside], g.1⟩, ⟨[Nside, Nside], g.2⟩)

/-- Shallow embedding of `_topology_hessian` (lines 218-297 of _topology.c),
analogous to `gradient_wrapper` with three outputs. -/
def hessian_wrapper (map? : Option (NpArray ℚ)) :
    Except TopErr (NpArray ℚ × NpArray ℚ × NpArray ℚ) :=
  match map? with
  | none => Except.error TopErr.coercionFailure
  | some map_array =>
      let Nside := dim map_array 0
      let h := hessian (at2fn map_array Nside) Nside
      Except.ok (⟨[Nside, Nside], h.1⟩, ⟨[Nside, Nside], h.2.1⟩, ⟨[Nside, Nside], h.2.2⟩)

/-- The sigma-normalized field. -/
def kappa (f : Nat → Nat → ℚ) (sigma : ℚ) (i j : Nat) : ℚ := f i j / sigma

/-- The number of valid (non-masked) samples. -/
def totValid (valid : Nat → Nat → Bool) (N : Nat) : Nat :=
  (gridPoints N).countP fun p => valid p.1 p.2

/-- Modelled from the spec: the V0 accumulation of the Minkowski kernel: the
number of valid samples whose normalized value is at least the b-th bin's
lower edge. -/
def minkV0Count (f : Nat → Nat → ℚ) (valid : Nat → Nat → Bool) (N : Nat)
    (sigma : ℚ) (thr : Nat → ℚ) (b : Nat) : Nat :=
  (gridPoints N).countP fun p =>
    valid p.1 p.2 && decide (thr b ≤ kappa f sigma p.1 p.2)

/-- Modelled from the spec: the V1 accumulation: over valid samples, the
Dirac-delta kernel of the normalized value minus the bin threshold times the
gradient magnitude of the normalized field.  `delta` is the delta
discretization (left open by the spec) and `rt` the numerical square root. -/
def minkV1Sum (f gx gy : Nat → Nat → ℚ) (valid : Nat → Nat → Bool) (N : Nat)
    (sigma : ℚ) (delta rt : ℚ → ℚ) (thr : Nat → ℚ) (b : Nat) : ℚ :=
  ((gridPoints N).map fun p =>
    if valid p.1 p.2 then
      delta (kappa f sigma p.1 p.2 - thr b) *
        rt ((gx p.1 p.2 / sigma) ^ 2 + (gy p.1 p.2 / sigma) ^ 2)
    else 0).sum

/-- Modelled from the spec: the V2 accumulation: the curvature term
`delta(kappa-nu)*(2*hxy*gx*gy - hxx*gy^2 - hyy*gx^2)/(gx^2+gy^2)` of the
normalized field over valid samples; samples with vanishing gradient
magnitude are skipped rather than producing a division failure. -/
def minkV2Sum (f gx gy hxx hyy hxy : Nat → Nat → ℚ) (valid : Nat → Nat → Bool)
    (N : Nat) (sigma : ℚ) (delta : ℚ → ℚ) (thr : Nat → ℚ) (b : Nat) : ℚ :=
  ((gridPoints N).map fun p =>
    let gxn := gx p.1 p.2 / sigma
    let gyn := gy p.1 p.2 / sigma
    if valid p.1 p.2 && decide (gxn ^ 2 + gyn ^ 2 ≠ 0) then
      delta (kappa f sigma p.1 p.2 - thr b) *
        ((2 * (hxy p.1 p.2 / sigma) * gxn * gyn -
            (hxx p.1 p.2 / sigma) * gyn ^ 2 - (hyy p.1 p.2 / sigma) * gxn ^ 2) /
          (gxn ^ 2 + gyn ^ 2))
    else 0).sum

/-- Modelled from the spec: the `minkowski_functionals` kernel of minkowski.h
(not in src/).  It accumulates the three excursion-set functionals into the
caller-provided zero-filled buffers; V0 is normalized by the total valid
sample count. -/
def minkowski_functionals (f gx gy hxx hyy hxy : Nat → Nat → ℚ)
    (mask : Option (Nat → Nat → Bool)) (N : Nat) (sigma : ℚ) (delta rt : ℚ → ℚ)
    (thr : Nat → ℚ) (out0 out1 out2 : List ℚ) : List ℚ × List ℚ × List ℚ :=
  let valid := maskValid mask
  ( mapFrom (fun b v => v + (minkV0Count f valid N sigma thr b : ℚ) / (totValid valid N : ℚ)) 0 out0,
    mapFrom (fun b v => v + minkV1Sum f gx gy valid N sigma delta rt thr b) 0 out1,
    mapFrom (fun b v => v + minkV2Sum f gx gy hxx hyy hxy valid N sigma delta thr b) 0 out2 )

/-- Body of `_topology_minkowski` after the argument coercions (lines 361-495
of _topology.c): grid side from the map's first dimension, number of bin
edges from the thresholds array's first dimension, three zero-filled output
vectors of length Nthreshold-1 handed to the kernel.  `PyTuple_New` and
`PyTuple_SetItem` on the fresh 3-tuple are modelled as always succeeding. -/
def minkowski_run (delta rt : ℚ → ℚ)
    (map_array grad_x grad_y hess_xx hess_yy hess_xy thresholds_array : NpArray ℚ)
    (mask_array : Option (NpArray Bool)) (sigma : ℚ) :
    Except TopErr (List ℚ × List ℚ × List ℚ) :=
  let Nside := dim map_array 0
  let Nthreshold := dim thresholds_array 0
  match pyZeros ((Nthreshold : Int) - 1), pyZeros ((Nthreshold : Int) - 1),
      pyZeros ((Nthreshold : Int) - 1) with
  | some m0, some m1, some m2 =>
      Except.ok (minkowski_functionals (at2fn map_array Nside)
        (at2fn grad_x Nside) (at2fn grad_y Nside) (at2fn hess_xx Nside)
        (at2fn hess_yy Nside) (at2fn hess_xy Nside)
        (peakMaskFn mask_array Nside) Nside sigma delta rt
        (fun k => thresholds_array.data.getD k 0) m0 m1 m2)
  | _, _, _ => Except.error TopErr.allocationFailure

/-- Shallow embedding of `_topology_minkowski` (lines 300-497 of _topology.c):
the seven double-array coercions are checked first, then the mask. -/
def minkowski_wrapper (delta rt : ℚ → ℚ)
    (map? gx? gy? hxx? hyy? hxy? thresholds? : Option (NpArray ℚ))
    (maskArg : MaskArg) (sigma : ℚ) : Except TopErr (List ℚ × List ℚ × List ℚ) :=
  match map?, gx?, gy?, hxx?, hyy?, hxy?, thresholds? with
  | some a, some gx, some gy, some hxx, some hyy, some hxy, some t =>
      match maskArg with
      | MaskArg.arr none => Except.error TopErr.coercionFailure
      | MaskArg.pyNone => minkowski_run delta rt a gx gy hxx hyy hxy t none sigma
      | MaskArg.arr (some m) => minkowski_run delta rt a gx gy hxx hyy hxy t (some m) sigma
  | _, _, _, _, _, _, _ => Except.error TopErr.coercionFailure




/-- A complex double, as stored in an NPY_COMPLEX128 buffer. -/
structure QC where
  re : ℚ
  im : ℚ
deriving DecidableEq, Repr

/-- The real part of `a * conj b`, the cross-power integrand. -/
def crossRe (a b : QC) : ℚ := a.re * b.re + a.im * b.im

/-- Read a flat complex buffer, out-of-range reads modelled as 0. -/
def flatC (a : NpArray QC) : Nat → QC := fun n => a.data.getD n ⟨0, 0⟩

/-- Signed FFT frequency of index i on a full axis of length n: indices past
n/2 stand for negative frequencies. -/
def freqIdx (n i : Nat) : Int := if i ≤ n / 2 then (i : Int) else (i : Int) - (n : Int)

/-- All row-major positions of an Nx x Ny grid. -/
def gridRect (Nx Ny : Nat) : List (Nat × Nat) :=
  (List.range Nx).product (List.range Ny)

/-- All row-major positions of an Nx x Ny x Nz grid. -/
def grid3 (Nx Ny Nz : Nat) : List (Nat × Nat × Nat) :=
  (List.range Nx).product ((List.range Ny).product (List.range Nz))

/-- Modelled from the spec: the multipole magnitude of mode (i, j) of an
rfft2 grid with full first axis of length Nx, namely
`(360/mapAngleDegrees) * sqrt(kx^2 + ky^2)` with `rt` the numerical square
root (this equals `2*pi*sqrt(kx^2+ky^2)/angleInRadians`). -/
def lmode (rt : ℚ → ℚ) (Nx : Nat) (mapAngleDegrees : ℚ) (i j : Nat) : ℚ :=
  (360 / mapAngleDegrees) * rt (((freqIdx Nx i : Int) : ℚ) ^ 2 + (j : ℚ) ^ 2)

/-- Symmetry weight of an rfft half-axis column: the redundant j = 0 column
counts once, the non-redundant half is doubled (modelled from the spec's
half-space symmetry handling; the exact treatment of the Nyquist column is
not specified and the doubling convention is used for every j > 0). -/
def rfftWeight (j : Nat) : ℚ := if j = 0 then 1 else 2

/-- Modelled from the spec: the weighted number of modes of the bin [thr b,
thr (b+1)) of an rfft2 grid. -/
def wcount2 (rt : ℚ → ℚ) (Nx Ny : Nat) (mapAngleDegrees : ℚ) (thr : Nat → ℚ)
    (b : Nat) : ℚ :=
  ((gridRect Nx Ny).map fun p =>
    if inBin (thr b) (thr (b + 1)) (lmode rt Nx mapAngleDegrees p.1 p.2) then
      rfftWeight p.2
    else 0).sum

/-- Modelled from the spec: the weighted cross-power accumulated in the bin
[thr b, thr (b+1)) of an rfft2 grid. -/
def wsum2 (rt : ℚ → ℚ) (ft1 ft2 : Nat → QC) (Nx Ny : Nat)
    (mapAngleDegrees : ℚ) (thr : Nat → ℚ) (b : Nat) : ℚ :=
  ((gridRect Nx Ny).map fun p =>
    if inBin (thr b) (thr (b + 1)) (lmode rt Nx mapAngleDegrees p.1 p.2) then
      rfftWeight p.2 * crossRe (ft1 (p.1 * Ny + p.2)) (ft2 (p.1 * Ny + p.2))
    else 0).sum

/-- The signature of the `azimuthal_rfft2` kernel as called by the wrapper
(line 548 of _topology.c): flat complex buffers, the dimensions of ft1, the
map angle, the bin edge buffer and the zero-filled output buffer; a `none`
result models a nonzero failure return code.  Note the kernel receives no
information about ft2's shape. -/
def Rfft2Kernel : Type :=
  (Nat → QC) → (Nat → QC) → Nat → Nat → ℚ → (Nat → ℚ) → List ℚ → Option (List ℚ)

/-- Modelled from the spec: the `azimuthal_rfft2` kernel of azimuth.h (not in
src/): mean cross-power per multipole bin, each bin's weighted sum divided by
its weighted mode count, bins with no contributing mode reporting zero. -/
def azimuthal_rfft2 (rt : ℚ → ℚ) : Rfft2Kernel :=
  fun ft1 ft2 Nx Ny mapAngleDegrees thr power0 =>
    some (mapFrom (fun b v =>
      v + wsum2 rt ft1 ft2 Nx Ny mapAngleDegrees thr b /
        wcount2 rt Nx Ny mapAngleDegrees thr b) 0 power0)

/-- The ids of the output buffers an azimuthal wrapper allocates. -/
inductive BufId where
  | power
  | hits
deriving DecidableEq, Repr

/-- Reference-count bookkeeping of a wrapper call: which output buffers were
allocated during the call and which of them were released before return. -/
structure Ledger where
  allocated : List BufId
  freed : List BufId
deriving DecidableEq, Repr

/-- Shallow embedding of `_topology_rfft2_azimuthal` (lines 500-566 of
_topology.c), parametric in the kernel it links against: both Fourier arrays
and the bin edges are coerced, the grid dimensions are taken from ft1, the
zero-filled output is allocated, and on a kernel failure signal the output
buffer is released and an error returned. -/
def rfft2_wrapper (ker : Rfft2Kernel) (ft1? ft2? : Option (NpArray QC))
    (mapAngleDegrees : ℚ) (lvalues? : Option (NpArray ℚ)) :
    Except TopErr (List ℚ) × Ledger :=
  match ft1?, ft2?, lvalues? with
  | some ft1, some ft2, some lv =>
      let Nx := dim ft1 0
      let Ny := dim ft1 1
      let Nvalues := dim lv 0
      match pyZeros ((Nvalues : Int) - 1) with
      | none => (Except.error TopErr.allocationFailure, ⟨[], []⟩)
      | some power0 =>
          match ker (flatC ft1) (flatC ft2) Nx Ny mapAngleDegrees
              (fun k => lv.data.getD k 0) power0 with
          | none => (Except.error TopErr.kernelFailure, ⟨[BufId.power], [BufId.power]⟩)
          | some power => (Except.ok power, ⟨[BufId.power], []⟩)
  | _, _, _ => (Except.error TopErr.coercionFailure, ⟨[], []⟩)

/-- Radial wavenumber magnitude of mode (i, j, k) of an rfft3 grid with full
first two axes, with per-axis pixel-to-wavenumber factors. -/
def kmag3 (rt : ℚ → ℚ) (Nx Ny : Nat) (kpixX kpixY kpixZ : ℚ) (i j k : Nat) : ℚ :=
  rt ((((freqIdx Nx i : Int) : ℚ) * kpixX) ^ 2 +
      (((freqIdx Ny j : Int) : ℚ) * kpixY) ^ 2 + ((k : ℚ) * kpixZ) ^ 2)

/-- Modelled from the spec: the number of grid samples of an rfft3 grid whose
radial wavenumber falls in the bin [thr b, thr (b+1)). -/
def hits3 (rt : ℚ → ℚ) (Nx Ny Nz : Nat) (kpixX kpixY kpixZ : ℚ)
    (thr : Nat → ℚ) (b : Nat) : Nat :=
  (grid3 Nx Ny Nz).countP fun p =>
    inBin (thr b) (thr (b + 1)) (kmag3 rt Nx Ny kpixX kpixY kpixZ p.1 p.2.1 p.2.2)

/-- Row-major flat position of (i, j, k) in an Nx x Ny x Nz buffer. -/
def flat3 (Ny Nz : Nat) (p : Nat × Nat × Nat) : Nat :=
  (p.1 * Ny + p.2.1) * Nz + p.2.2

/-- Modelled from the spec: the symmetry-weighted cross-power accumulated in
bin b of an rfft3 grid (the half axis is the last one, so the kz = 0 plane
counts once and the rest is doubled). -/
def powerSum3 (rt : ℚ → ℚ) (ft1 ft2 : Nat → QC) (Nx Ny Nz : Nat)
    (kpixX kpixY kpixZ : ℚ) (thr : Nat → ℚ) (b : Nat) : ℚ :=
  ((grid3 Nx Ny Nz).map fun p =>
    if inBin (thr b) (thr (b + 1)) (kmag3 rt Nx Ny kpixX kpixY kpixZ p.1 p.2.1 p.2.2) then
      rfftWeight p.2.2 * crossRe (ft1 (flat3 Ny Nz p)) (ft2 (flat3 Ny Nz p))
    else 0).sum

/-- The signature of the `azimuthal_rfft3` kernel as called by the wrapper
(line 621 of _topology.c); it fills the power and hits buffers and signals
failure by a nonzero return code (`none`).  It receives no information about
ft2's shape. -/
def Rfft3Kernel : Type :=
  (Nat → QC) → (Nat → QC) → Nat → Nat → Nat → ℚ → ℚ → ℚ → (Nat → ℚ) →
    List ℚ → List Int → Option (List ℚ × List Int)

/-- Modelled from the spec: the `azimuthal_rfft3` kernel of azimuth.h (not in
src/): fails if any pixel-to-wavenumber factor is nonpositive; otherwise
accumulates, per bin, the averaged cross-power and the integer count of
contributing grid samples into the caller-provided zero-filled buffers. -/
def azimuthal_rfft3 (rt : ℚ → ℚ) : Rfft3Kernel :=
  fun ft1 ft2 Nx Ny Nz kpixX kpixY kpixZ thr power0 hits0 =>
    if kpixX ≤ 0 ∨ kpixY ≤ 0 ∨ kpixZ ≤ 0 then none
    else some
      ( mapFrom (fun b v =>
          v + powerSum3 rt ft1 ft2 Nx Ny Nz kpixX kpixY kpixZ thr b /
            (hits3 rt Nx Ny Nz kpixX kpixY kpixZ thr b : ℚ)) 0 power0,
        mapFrom (fun b v =>
          v + (hits3 rt Nx Ny Nz kpixX kpixY kpixZ thr b : Int)) 0 hits0 )

/-- Shallow embedding of `_topology_rfft3_azimuthal` (lines 569-665 of
_topology.c), parametric in the kernel: dimensions from ft1, zero-filled
double power and signed-integer hits outputs of length Nvalues-1, the result
tuple holding hits first and power second; on a kernel failure signal both
output buffers are released.  `PyTuple_New`/`PyTuple_SetItem` on the fresh
2-tuple are modelled as always succeeding. -/
def rfft3_wrapper (ker : Rfft3Kernel) (ft1? ft2? : Option (NpArray QC))
    (kpixX kpixY kpixZ : ℚ) (kvalues? : Option (NpArray ℚ)) :
    Except TopErr (List Int × List ℚ) × Ledger :=
  match ft1?, ft2?, kvalues? with
  | some ft1, some ft2, some kv =>
      let Nx := dim ft1 0
      let Ny := dim ft1 1
      let Nz := dim ft1 2
      let Nvalues := dim kv 0
      match pyZeros ((Nvalues : Int) - 1), pyZerosInt ((Nvalues : Int) - 1) with
      | some power0, some hits0 =>
          match ker (flatC ft1) (flatC ft2) Nx Ny Nz kpixX kpixY kpixZ
              (fun k => kv.data.getD k 0) power0 hits0 with
          | none =>
              (Except.error TopErr.kernelFailure,
                ⟨[BufId.power, BufId.hits], [BufId.power, BufId.hits]⟩)
          | some (power, hits) =>
              (Except.ok (hits, power), ⟨[BufId.power, BufId.hits], []⟩)
      | _, _ => (Except.error TopErr.allocationFailure, ⟨[], []⟩)
  | _, _, _ => (Except.error TopErr.coercionFailure, ⟨[], []⟩)

/-- The module-level state of the _topology extension.  The C file's only
globals are constant docstrings and the method table; `init_topology` (lines
50-58) registers the module and nothing else, so the state carries only the
registration flag and no entry point reads or writes anything else. -/
structure ModuleState where
  registered : Bool
deriving DecidableEq, Repr

/-- Shallow embedding of `init_topology` (lines 50-58 of _topology.c). -/
def init_topology (_s : ModuleState) : ModuleState := ⟨true⟩

/-- peakCount as invoked through the module: it reads no module state and
leaves it unchanged. -/
def peakCount_call (s : ModuleState) (map? : Option (NpArray ℚ))
    (maskArg : MaskArg) (thresholds? : Option (NpArray ℚ)) (sigma : ℚ) :
    Except TopErr (List ℚ) × ModuleState :=
  (peakCount_wrapper map? maskArg thresholds? sigma, s)

/-- gradient as invoked through the module. -/
def gradient_call (s : ModuleState) (map? : Option (NpArray ℚ)) :
    Except TopErr (NpArray ℚ × NpArray ℚ) × ModuleState :=
  (gradient_wrapper map?, s)

/-- hessian as invoked through the module. -/
def hessian_call (s : ModuleState) (map? : Option (NpArray ℚ)) :
    Except TopErr (NpArray ℚ × NpArray ℚ × NpArray ℚ) × ModuleState :=
  (hessian_wrapper map?, s)

/-- minkowski as invoked through the module. -/
def minkowski_call (s : ModuleState) (delta rt : ℚ → ℚ)
    (map? gx? gy? hxx? hyy? hxy? thresholds? : Option (NpArray ℚ))
    (maskArg : MaskArg) (sigma : ℚ) :
    Except TopErr (List ℚ × List ℚ × List ℚ) × ModuleState :=
  (minkowski_wrapper delta rt map? gx? gy? hxx? hyy? hxy? thresholds? maskArg sigma, s)

/-- rfft2_azimuthal as invoked through the module. -/
def rfft2_call (s : ModuleState) (ker : Rfft2Kernel)
    (ft1? ft2? : Option (NpArray QC)) (mapAngleDegrees : ℚ)
    (lvalues? : Option (NpArray ℚ)) :
    (Except TopErr (List ℚ) × Ledger) × ModuleState :=
  (rfft2_wrapper ker ft1? ft2? mapAngleDegrees lvalues?, s)

/-- rfft3_azimuthal as invoked through the module. -/
def rfft3_call (s : ModuleState) (ker : Rfft3Kernel)
    (ft1? ft2? : Option (NpArray QC)) (kpixX kpixY kpixZ : ℚ)
    (kvalues? : Option (NpArray ℚ)) :
    (Except TopErr (List Int × List ℚ) × Ledger) × ModuleState :=
  (rfft3_wrapper ker ft1? ft2? kpixX kpixY kpixZ kvalues?, s)



theorem pyZeros_length {n : Int} {l : List ℚ} (h : pyZeros n = some l) :
    l.length = n.toNat := by
  unfold pyZeros at h
  split at h
  · cases h
  · injection h with h
    rw [← h]
    simp

theorem pyZerosInt_length {n : Int} {l : List Int} (h : pyZerosInt n = some l) :
    l.length = n.toNat := by
  unfold pyZerosInt at h
  split at h
  · cases h
  · injection h with h
    rw [← h]
    simp

theorem peakCount_run_length {m : NpArray ℚ} {msk : Option (NpArray Bool)}
    {t : NpArray ℚ} {sigma : ℚ} {out : List ℚ}
    (h : peakCount_run m msk t sigma = Except.ok out) :
    out.length = dim t 0 - 1 := by
  rcases hz : pyZeros ((dim t 0 : Int) - 1) with _ | z
  · simp only [peakCount_run, hz] at h
    cases h
  · simp only [peakCount_run, hz, Except.ok.injEq] at h
    have hl := pyZeros_length hz
    rw [← h]
    simp only [peak_count, length_mapFrom, hl]
    omega

theorem minkowski_run_lengths {delta rt : ℚ → ℚ}
    {a gx gy hxx hyy hxy t : NpArray ℚ} {msk : Option (NpArray Bool)} {sigma : ℚ}
    {out : List ℚ × List ℚ × List ℚ}
    (h : minkowski_run delta rt a gx gy hxx hyy hxy t msk sigma = Except.ok out) :
    out.1.length = dim t 0 - 1 ∧ out.2.1.length = dim t 0 - 1 ∧
      out.2.2.length = dim t 0 - 1 := by
  rcases hz : pyZeros ((dim t 0 : Int) - 1) with _ | z
  · simp only [minkowski_run, hz] at h
    cases h
  · simp only [minkowski_run, hz, Except.ok.injEq] at h
    have hl := pyZeros_length hz
    rw [← h]
    simp only [minkowski_functionals, length_mapFrom, hl]
    omega

/-- C1: for every call to peakCount, minkowski, rfft2_azimuthal or
rfft3_azimuthal (the latter two linked against the spec-modelled kernels)
whose thresholds / lvalues / kvalues array has first dimension N, every
statistic vector returned has length exactly N-1. -/
theorem C1_statistic_vector_lengths :
    (∀ (map? : Option (NpArray ℚ)) (maskArg : MaskArg) (t : NpArray ℚ)
        (sigma : ℚ) (out : List ℚ),
        peakCount_wrapper map? maskArg (some t) sigma = Except.ok out →
        out.length = dim t 0 - 1) ∧
    (∀ (delta rt : ℚ → ℚ) (map? gx? gy? hxx? hyy? hxy? : Option (NpArray ℚ))
        (t : NpArray ℚ) (maskArg : MaskArg) (sigma : ℚ)
        (out : List ℚ × List ℚ × List ℚ),
        minkowski_wrapper delta rt map? gx? gy? hxx? hyy? hxy? (some t) maskArg
            sigma = Except.ok out →
        out.1.length = dim t 0 - 1 ∧ out.2.1.length = dim t 0 - 1 ∧
          out.2.2.length = dim t 0 - 1) ∧
    (∀ (rt : ℚ → ℚ) (ft1? ft2? : Option (NpArray QC)) (angle : ℚ)
        (lv : NpArray ℚ) (out : List ℚ),
        (rfft2_wrapper (azimuthal_rfft2 rt) ft1? ft2? angle (some lv)).1 =
            Except.ok out →
        out.length = dim lv 0 - 1) ∧
    (∀ (rt : ℚ → ℚ) (ft1? ft2? : Option (NpArray QC)) (kX kY kZ : ℚ)
        (kv : NpArray ℚ) (out : List Int × List ℚ),
        (rfft3_wrapper (azimuthal_rfft3 rt) ft1? ft2? kX kY kZ (some kv)).1 =
            Except.ok out →
        out.1.length = dim kv 0 - 1 ∧ out.2.length = dim kv 0 - 1) := by
  refine ⟨?_, ?_, ?_, ?_⟩
  · intro map? maskArg t sigma out h
    cases map? with
    | none => simp [peakCount_wrapper] at h
    | some m =>
        cases maskArg with
        | pyNone => exact peakCount_run_length h
        | arr mm =>
            cases mm with
            | none => simp [peakCount_wrapper] at h
            | some msk => exact peakCount_run_length h
  · intro delta rt map? gx? gy? hxx? hyy? hxy? t maskArg sigma out h
    cases map? with
    | none => simp [minkowski_wrapper] at h
    | some a =>
    cases gx? with
    | none => simp [minkowski_wrapper] at h
    | some gx =>
    cases gy? with
    | none => simp [minkowski_wrapper] at h
    | some gy =>
    cases hxx? with
    | none => simp [minkowski_wrapper] at h
    | some hxx =>
    cases hyy? with
    | none => simp [minkowski_wrapper] at h
    | some hyy =>
    cases hxy? with
    | none => simp [minkowski_wrapper] at h
    | some hxy =>
        cases maskArg with
        | pyNone => exact minkowski_run_lengths h
        | arr mm =>
            cases mm with
            | none => simp [minkowski_wrapper] at h
            | some msk => exact minkowski_run_lengths h
  · intro rt ft1? ft2? angle lv out h
    cases ft1? with
    | none => simp [rfft2_wrapper] at h
    | some ft1 =>
    cases ft2? with
    | none => simp [rfft2_wrapper] at h
    | some ft2 =>
        rcases hz : pyZeros ((dim lv 0 : Int) - 1) with _ | z
        · simp only [rfft2_wrapper, hz] at h
          cases h
        · simp only [rfft2_wrapper, hz, azimuthal_rfft2, Except.ok.injEq] at h
          have hl := pyZeros_length hz
          rw [← h]
          simp only [length_mapFrom, hl]
          omega
  · intro rt ft1? ft2? kX kY kZ kv out h
    cases ft1? with
    | none => simp [rfft3_wrapper] at h
    | some ft1 =>
    cases ft2? with
    | none => simp [rfft3_wrapper] at h
    | some ft2 =>
        rcases hz0 : pyZeros ((dim kv 0 : Int) - 1) with _ | z0
        · simp only [rfft3_wrapper, hz0] at h
          cases h
        · rcases hz1 : pyZerosInt ((dim kv 0 : Int) - 1) with _ | z1
          · simp only [rfft3_wrapper, hz0, hz1] at h
            cases h
          · simp only [rfft3_wrapper, hz0, hz1, azimuthal_rfft3] at h
            by_cases hk : kX ≤ 0 ∨ kY ≤ 0 ∨ kZ ≤ 0
            · simp only [if_pos hk] at h
              cases h
            · simp only [if_neg hk, Except.ok.injEq] at h
              have hl0 := pyZeros_length hz0
              have hl1 := pyZerosInt_length hz1
              rw [← h]
              simp only [length_mapFrom, hl0, hl1]
              omega

/-- Witness for C1: the four entry points applied at concrete inputs. -/
theorem C1_statistic_vector_lengths_witness :
    ([(0 : ℚ)].length = dim (⟨[2], [0, 1]⟩ : NpArray ℚ) 0 - 1) ∧
    (([(1 : ℚ)].length = dim (⟨[2], [0, 1]⟩ : NpArray ℚ) 0 - 1) ∧
      ([(0 : ℚ)].length = dim (⟨[2], [0, 1]⟩ : NpArray ℚ) 0 - 1) ∧
      ([(0 : ℚ)].length = dim (⟨[2], [0, 1]⟩ : NpArray ℚ) 0 - 1)) ∧
    ([(4 : ℚ)].length = dim (⟨[2], [0, 10]⟩ : NpArray ℚ) 0 - 1) ∧
    (([(1 : Int)].length = dim (⟨[2], [0, 1]⟩ : NpArray ℚ) 0 - 1) ∧
      ([(0 : ℚ)].length = dim (⟨[2], [0, 1]⟩ : NpArray ℚ) 0 - 1)) := by
  refine ⟨?_, ?_, ?_, ?_⟩
  · exact C1_statistic_vector_lengths.1 (some ⟨[1, 1], [5]⟩) MaskArg.pyNone
      ⟨[2], [0, 1]⟩ 1 [0] (by decide)
  · exact C1_statistic_vector_lengths.2.1 (fun _ => 0) id (some ⟨[1, 1], [0]⟩)
      (some ⟨[1, 1], [0]⟩) (some ⟨[1, 1], [0]⟩) (some ⟨[1, 1], [0]⟩)
      (some ⟨[1, 1], [0]⟩) (some ⟨[1, 1], [0]⟩) ⟨[2], [0, 1]⟩ MaskArg.pyNone 1
      ([1], [0], [0]) (by decide)
  · exact C1_statistic_vector_lengths.2.2.1 id (some ⟨[1, 1], [⟨2, 0⟩]⟩)
      (some ⟨[2, 2], [⟨2, 0⟩, ⟨0, 0⟩, ⟨0, 0⟩, ⟨0, 0⟩]⟩) 1 ⟨[2], [0, 10]⟩ [4]
      (by decide)
  · exact C1_statistic_vector_lengths.2.2.2 id (some ⟨[1, 1, 1], [⟨0, 0⟩]⟩)
      (some ⟨[1, 1, 1], [⟨0, 0⟩]⟩) 1 1 1 ⟨[2], [0, 1]⟩ ([1], [0]) (by decide)

theorem length_gridPoints (N : Nat) : (gridPoints N).length = N * N := by
  have h : gridPoints N = (List.range N) ×ˢ (List.range N) := rfl
  rw [h, List.length_product, List.length_range]

/-- C2 counterexample: a peakCount call whose mask shape (3x3) differs from
the map shape (2x2) succeeds and returns a statistic vector, and an
rfft2_azimuthal call whose ft2 shape (2x2) differs from ft1's (1x1) succeeds
as well: neither call fails with an invalid-shape error. -/
theorem C2_counterexample :
    ((⟨[2, 2], [0, 0, 0, 0]⟩ : NpArray ℚ).shape ≠
        (⟨[3, 3], List.replicate 9 false⟩ : NpArray Bool).shape ∧
      peakCount_wrapper (some ⟨[2, 2], [0, 0, 0, 0]⟩)
          (MaskArg.arr (some ⟨[3, 3], List.replicate 9 false⟩))
          (some ⟨[2], [0, 1]⟩) 1 =
        Except.ok [0]) ∧
    ((⟨[1, 1], [⟨2, 0⟩]⟩ : NpArray QC).shape ≠
        (⟨[2, 2], [⟨2, 0⟩, ⟨0, 0⟩, ⟨0, 0⟩, ⟨0, 0⟩]⟩ : NpArray QC).shape ∧
      (rfft2_wrapper (azimuthal_rfft2 id) (some ⟨[1, 1], [⟨2, 0⟩]⟩)
          (some ⟨[2, 2], [⟨2, 0⟩, ⟨0, 0⟩, ⟨0, 0⟩, ⟨0, 0⟩]⟩) 1
          (some ⟨[2], [0, 10]⟩)).1 =
        Except.ok [4]) :=
  ⟨⟨by decide, by decide⟩, by decide, by decide⟩

/-- C2 amended: the wrappers perform no shape comparison at all: the outcome
of a peakCount or minkowski call depends on the mask array only through its
flat data (its shape is never read), and the outcomes of
rfft2/rfft3_azimuthal depend on ft2 only through its flat data while every
dimension is taken from ft1; a mismatched-shape call therefore proceeds
exactly like the same-data call of any other shape and no invalid-shape
error exists. -/
theorem C2_amended_no_shape_check :
    (∀ (map? : Option (NpArray ℚ)) (s s2 : List Nat) (mdata : List Bool)
        (thresholds? : Option (NpArray ℚ)) (sigma : ℚ),
        peakCount_wrapper map? (MaskArg.arr (some ⟨s, mdata⟩)) thresholds? sigma =
          peakCount_wrapper map? (MaskArg.arr (some ⟨s2, mdata⟩)) thresholds? sigma) ∧
    (∀ (delta rt : ℚ → ℚ)
        (map? gx? gy? hxx? hyy? hxy? thresholds? : Option (NpArray ℚ))
        (s s2 : List Nat) (mdata : List Bool) (sigma : ℚ),
        minkowski_wrapper delta rt map? gx? gy? hxx? hyy? hxy? thresholds?
            (MaskArg.arr (some ⟨s, mdata⟩)) sigma =
          minkowski_wrapper delta rt map? gx? gy? hxx? hyy? hxy? thresholds?
            (MaskArg.arr (some ⟨s2, mdata⟩)) sigma) ∧
    (∀ (ker : Rfft2Kernel) (ft1? : Option (NpArray QC)) (s s2 : List Nat)
        (d : List QC) (angle : ℚ) (lv? : Option (NpArray ℚ)),
        rfft2_wrapper ker ft1? (some ⟨s, d⟩) angle lv? =
          rfft2_wrapper ker ft1? (some ⟨s2, d⟩) angle lv?) ∧
    (∀ (ker : Rfft3Kernel) (ft1? : Option (NpArray QC)) (s s2 : List Nat)
        (d : List QC) (kX kY kZ : ℚ) (kv? : Option (NpArray ℚ)),
        rfft3_wrapper ker ft1? (some ⟨s, d⟩) kX kY kZ kv? =
          rfft3_wrapper ker ft1? (some ⟨s2, d⟩) kX kY kZ kv?) := by
  refine ⟨?_, ?_, ?_, ?_⟩
  · intro map? s s2 mdata thresholds? sigma
    cases map? <;> cases thresholds? <;> rfl
  · intro delta rt map? gx? gy? hxx? hyy? hxy? thresholds? s s2 mdata sigma
    cases map? <;> cases gx? <;> cases gy? <;> cases hxx? <;> cases hyy? <;>
      cases hxy? <;> cases thresholds? <;> rfl
  · intro ker ft1? s s2 d angle lv?
    cases ft1? <;> cases lv? <;> rfl
  · intro ker ft1? s s2 d kX kY kZ kv?
    cases ft1? <;> cases kv? <;> rfl

/-- C3 counterexample: a peakCount call with a single bin edge (fewer than 2)
succeeds, returning an empty statistic vector rather than failing before
accumulation, and a call with strictly decreasing edges [1, 0] succeeds as
well. -/
theorem C3_counterexample :
    peakCount_wrapper (some ⟨[1, 1], [0]⟩) MaskArg.pyNone (some ⟨[1], [7]⟩) 1 =
        Except.ok [] ∧
      peakCount_wrapper (some ⟨[1, 1], [0]⟩) MaskArg.pyNone (some ⟨[2], [1, 0]⟩) 1 =
        Except.ok [0] :=
  ⟨by decide, by decide⟩

/-- C3 amended: no threshold validation is performed: any thresholds array
with first dimension n+1 (so with at least one edge, even a single edge or
non-increasing edges) yields a statistic vector of length n; only an empty
thresholds array fails, and then with an allocation failure (numpy rejects
the requested output length -1), not a threshold-validation error. -/
theorem C3_amended_no_threshold_validation :
    (∀ (m : NpArray ℚ) (tdata : List ℚ) (n : Nat) (sigma : ℚ),
        ∃ out, peakCount_wrapper (some m) MaskArg.pyNone
            (some ⟨[n + 1], tdata⟩) sigma = Except.ok out ∧ out.length = n) ∧
    (∀ (m : NpArray ℚ) (tdata : List ℚ) (sigma : ℚ),
        peakCount_wrapper (some m) MaskArg.pyNone (some ⟨[0], tdata⟩) sigma =
          Except.error TopErr.allocationFailure) ∧
    (∀ (delta rt : ℚ → ℚ) (a gx gy hxx hyy hxy : NpArray ℚ) (tdata : List ℚ)
        (n : Nat) (sigma : ℚ),
        ∃ out, minkowski_wrapper delta rt (some a) (some gx) (some gy)
            (some hxx) (some hyy) (some hxy) (some ⟨[n + 1], tdata⟩)
            MaskArg.pyNone sigma = Except.ok out ∧ out.1.length = n) := by
  have hz : ∀ n : Nat, pyZeros (((n + 1 : Nat) : Int) - 1) =
      some (List.replicate n 0) := by
    intro n
    have h1 : ¬(((n + 1 : Nat) : Int) - 1 < 0) := by omega
    have h2 : (((n + 1 : Nat) : Int) - 1).toNat = n := by omega
    simp [pyZeros, h1, h2]
  refine ⟨?_, ?_, ?_⟩
  · intro m tdata n sigma
    have h1 : ∃ out, peakCount_run m none ⟨[n + 1], tdata⟩ sigma = Except.ok out := by
      simp only [peakCount_run]
      rw [show dim (⟨[n + 1], tdata⟩ : NpArray ℚ) 0 = n + 1 from rfl, hz n]
      exact ⟨_, rfl⟩
    rcases h1 with ⟨out, h1⟩
    refine ⟨out, h1, ?_⟩
    have h2 := peakCount_run_length h1
    simpa [dim] using h2
  · intro m tdata sigma
    show peakCount_run m none ⟨[0], tdata⟩ sigma = _
    simp only [peakCount_run]
    rw [show dim (⟨[0], tdata⟩ : NpArray ℚ) 0 = 0 from rfl]
    rfl
  · intro delta rt a gx gy hxx hyy hxy tdata n sigma
    have h1 : ∃ out, minkowski_run delta rt a gx gy hxx hyy hxy ⟨[n + 1], tdata⟩
        none sigma = Except.ok out := by
      simp only [minkowski_run]
      rw [show dim (⟨[n + 1], tdata⟩ : NpArray ℚ) 0 = n + 1 from rfl, hz n]
      exact ⟨_, rfl⟩
    rcases h1 with ⟨out, h1⟩
    refine ⟨out, h1, ?_⟩
    have h2 := (minkowski_run_lengths h1).1
    simpa [dim] using h2

/-- C4 counterexample: on a non-square 1x2 map the gradient call succeeds but
returns 1x1 arrays, whose shape differs from the input shape, so the output
shape does not always equal the input shape. -/
theorem C4_counterexample :
    gradient_wrapper (some ⟨[1, 2], [3, 4]⟩) =
        Except.ok (⟨[1, 1], [0]⟩, ⟨[1, 1], [0]⟩) ∧
      (⟨[1, 1], ([0] : List ℚ)⟩ : NpArray ℚ).shape ≠
        (⟨[1, 2], ([3, 4] : List ℚ)⟩ : NpArray ℚ).shape :=
  ⟨by decide, by decide⟩

/-- C4 amended: gradient always succeeds on a coerced map and returns a pair
of Nside x Nside arrays where Nside is the input's first dimension, so the
output shape equals the input shape exactly when the input is square; the
wrapper performs no shape check and its only modelled failure is a failed
argument coercion. -/
theorem C4_amended_gradient_shape :
    (∀ m : NpArray ℚ, ∃ g : NpArray ℚ × NpArray ℚ,
        gradient_wrapper (some m) = Except.ok g ∧
        g.1.shape = [dim m 0, dim m 0] ∧ g.2.shape = [dim m 0, dim m 0] ∧
        g.1.data.length = dim m 0 * dim m 0 ∧
        g.2.data.length = dim m 0 * dim m 0) ∧
      gradient_wrapper none = Except.error TopErr.coercionFailure := by
  constructor
  · intro m
    refine ⟨_, rfl, rfl, rfl, ?_, ?_⟩ <;>
      simp [gradient_wrapper, gradient_xy, length_gridPoints]
  · rfl

theorem pyZeros_eq {n : Int} {l : List ℚ} (h : pyZeros n = some l) :
    l = List.replicate n.toNat 0 := by
  unfold pyZeros at h
  split at h
  · cases h
  · injection h with h
    exact h.symm

theorem pyZerosInt_eq {n : Int} {l : List Int} (h : pyZerosInt n = some l) :
    l = List.replicate n.toNat 0 := by
  unfold pyZerosInt at h
  split at h
  · cases h
  · injection h with h
    exact h.symm

/-- C5: every successful rfft3_azimuthal call (with the spec-modelled kernel)
returns a pair (hits, power): hits is a signed-integer vector of length N-1
whose b-th entry counts the grid samples whose radial wavenumber falls in bin
b, and power is a double vector of length N-1 holding each bin's averaged
cross-power (bin sum divided by its hit count). -/
theorem C5_rfft3_hits_and_power :
    ∀ (rt : ℚ → ℚ) (ft1 ft2 : NpArray QC) (kX kY kZ : ℚ) (kv : NpArray ℚ)
      (out : List Int × List ℚ),
      (rfft3_wrapper (azimuthal_rfft3 rt) (some ft1) (some ft2) kX kY kZ
          (some kv)).1 = Except.ok out →
      out.1.length = dim kv 0 - 1 ∧ out.2.length = dim kv 0 - 1 ∧
      ∀ b, b < dim kv 0 - 1 →
        out.1.getD b 0 =
          (hits3 rt (dim ft1 0) (dim ft1 1) (dim ft1 2) kX kY kZ
            (fun k => kv.data.getD k 0) b : Int) ∧
        out.2.getD b 0 =
          powerSum3 rt (flatC ft1) (flatC ft2) (dim ft1 0) (dim ft1 1)
              (dim ft1 2) kX kY kZ (fun k => kv.data.getD k 0) b /
            (hits3 rt (dim ft1 0) (dim ft1 1) (dim ft1 2) kX kY kZ
              (fun k => kv.data.getD k 0) b : ℚ) := by
  intro rt ft1 ft2 kX kY kZ kv out h
  rcases hz0 : pyZeros ((dim kv 0 : Int) - 1) with _ | z0
  · simp only [rfft3_wrapper, hz0] at h
    cases h
  · rcases hz1 : pyZerosInt ((dim kv 0 : Int) - 1) with _ | z1
    · simp only [rfft3_wrapper, hz0, hz1] at h
      cases h
    · simp only [rfft3_wrapper, hz0, hz1, azimuthal_rfft3] at h
      by_cases hk : kX ≤ 0 ∨ kY ≤ 0 ∨ kZ ≤ 0
      · simp only [if_pos hk] at h
        cases h
      · simp only [if_neg hk, Except.ok.injEq] at h
        have hl0 := pyZeros_length hz0
        have hl1 := pyZerosInt_length hz1
        rw [← h]
        refine ⟨?_, ?_, ?_⟩
        · simp only [length_mapFrom, hl1]
          omega
        · simp only [length_mapFrom, hl0]
          omega
        · intro b hb
          have hb1 : b < z1.length := by omega
          have hb0 : b < z0.length := by omega
          constructor
          · show (mapFrom _ 0 z1).getD b 0 = _
            rw [getD_mapFrom _ 0 b z1 0 0 hb1, pyZerosInt_eq hz1,
              getD_replicate_zero_int]
            simp
          · show (mapFrom _ 0 z0).getD b 0 = _
            rw [getD_mapFrom _ 0 b z0 0 0 hb0, pyZeros_eq hz0,
              getD_replicate_zero]
            simp

/-- Witness for C5 on a 1x1x1 grid whose single mode lands in the only bin. -/
theorem C5_rfft3_hits_and_power_witness :
    [(1 : Int)].length = 1 ∧ [(0 : ℚ)].length = 1 ∧
    [(1 : Int)].getD 0 0 =
      (hits3 id 1 1 1 1 1 1
        (fun k => (⟨[2], [0, 1]⟩ : NpArray ℚ).data.getD k 0) 0 : Int) ∧
    [(0 : ℚ)].getD 0 0 =
      powerSum3 id (flatC ⟨[1, 1, 1], [⟨0, 0⟩]⟩) (flatC ⟨[1, 1, 1], [⟨0, 0⟩]⟩)
          1 1 1 1 1 1 (fun k => (⟨[2], [0, 1]⟩ : NpArray ℚ).data.getD k 0) 0 /
        (hits3 id 1 1 1 1 1 1
          (fun k => (⟨[2], [0, 1]⟩ : NpArray ℚ).data.getD k 0) 0 : ℚ) := by
  have h := C5_rfft3_hits_and_power id ⟨[1, 1, 1], [⟨0, 0⟩]⟩
    ⟨[1, 1, 1], [⟨0, 0⟩]⟩ 1 1 1 ⟨[2], [0, 1]⟩ ([1], [0]) (by decide)
  exact ⟨h.1, h.2.1, (h.2.2 0 (by decide)).1, (h.2.2 0 (by decide)).2⟩

theorem pyZeros_succ (n : Nat) :
    pyZeros (((n + 1 : Nat) : Int) - 1) = some (List.replicate n 0) := by
  have h1 : ¬(((n + 1 : Nat) : Int) - 1 < 0) := by omega
  have h2 : (((n + 1 : Nat) : Int) - 1).toNat = n := by omega
  simp [pyZeros, h1, h2]

theorem pyZerosInt_succ (n : Nat) :
    pyZerosInt (((n + 1 : Nat) : Int) - 1) = some (List.replicate n 0) := by
  have h1 : ¬(((n + 1 : Nat) : Int) - 1 < 0) := by omega
  have h2 : (((n + 1 : Nat) : Int) - 1).toNat = n := by omega
  simp [pyZerosInt, h1, h2]

/-- An rfft2 kernel that always signals failure (a nonzero return code). -/
def rfft2KernelFail : Rfft2Kernel := fun _ _ _ _ _ _ _ => none

/-- An rfft3 kernel that always signals failure. -/
def rfft3KernelFail : Rfft3Kernel := fun _ _ _ _ _ _ _ _ _ _ _ => none

/-- C6: every failing call of the five entry points (peakCount, gradient and
hessian, minkowski, rfft2_azimuthal, rfft3_azimuthal) returns an error and no
statistic data, the error names the violated contract (coercion vs allocation
vs kernel failure), and on every error exit of an azimuthal wrapper the
released output buffers are exactly the allocated ones; in particular a
kernel failure signal makes the wrapper release the already-allocated power
(and hits) buffers and return neither. -/
theorem C6_failure_behavior :
    (∀ (ker : Rfft2Kernel) (ft1? ft2? : Option (NpArray QC)) (angle : ℚ)
        (lv? : Option (NpArray ℚ)) (e : TopErr),
        (rfft2_wrapper ker ft1? ft2? angle lv?).1 = Except.error e →
        (rfft2_wrapper ker ft1? ft2? angle lv?).2.freed =
          (rfft2_wrapper ker ft1? ft2? angle lv?).2.allocated) ∧
    (∀ (ker : Rfft3Kernel) (ft1? ft2? : Option (NpArray QC)) (kX kY kZ : ℚ)
        (kv? : Option (NpArray ℚ)) (e : TopErr),
        (rfft3_wrapper ker ft1? ft2? kX kY kZ kv?).1 = Except.error e →
        (rfft3_wrapper ker ft1? ft2? kX kY kZ kv?).2.freed =
          (rfft3_wrapper ker ft1? ft2? kX kY kZ kv?).2.allocated) ∧
    (∀ (ker : Rfft2Kernel) (ft2? : Option (NpArray QC)) (angle : ℚ)
        (lv? : Option (NpArray ℚ)),
        (rfft2_wrapper ker none ft2? angle lv?).1 =
          Except.error TopErr.coercionFailure) ∧
    (∀ (ft1 ft2 : NpArray QC) (angle : ℚ) (d : List ℚ) (n : Nat),
        rfft2_wrapper rfft2KernelFail (some ft1) (some ft2) angle
            (some ⟨[n + 1], d⟩) =
          (Except.error TopErr.kernelFailure, ⟨[BufId.power], [BufId.power]⟩)) ∧
    (∀ (ft1 ft2 : NpArray QC) (kX kY kZ : ℚ) (d : List ℚ) (n : Nat),
        rfft3_wrapper rfft3KernelFail (some ft1) (some ft2) kX kY kZ
            (some ⟨[n + 1], d⟩) =
          (Except.error TopErr.kernelFailure,
            ⟨[BufId.power, BufId.hits], [BufId.power, BufId.hits]⟩)) ∧
    (∀ (ker : Rfft2Kernel) (ft1 ft2 : NpArray QC) (angle : ℚ) (d : List ℚ),
        rfft2_wrapper ker (some ft1) (some ft2) angle (some ⟨[0], d⟩) =
          (Except.error TopErr.allocationFailure, ⟨[], []⟩)) ∧
    (∀ (maskArg : MaskArg) (thresholds? : Option (NpArray ℚ)) (sigma : ℚ),
        peakCount_wrapper none maskArg thresholds? sigma =
          Except.error TopErr.coercionFailure) ∧
    (∀ (map? thresholds? : Option (NpArray ℚ)) (sigma : ℚ),
        peakCount_wrapper map? (MaskArg.arr none) thresholds? sigma =
          Except.error TopErr.coercionFailure) ∧
    (∀ (m : NpArray ℚ) (ma? : Option (NpArray Bool)) (d : List ℚ) (sigma : ℚ),
        peakCount_wrapper (some m) (maskArgOf ma?) (some ⟨[0], d⟩) sigma =
          Except.error TopErr.allocationFailure) ∧
    (∀ (delta rt : ℚ → ℚ)
        (gx? gy? hxx? hyy? hxy? thresholds? : Option (NpArray ℚ))
        (maskArg : MaskArg) (sigma : ℚ),
        minkowski_wrapper delta rt none gx? gy? hxx? hyy? hxy? thresholds?
            maskArg sigma = Except.error TopErr.coercionFailure) ∧
    (∀ (delta rt : ℚ → ℚ) (a gx gy hxx hyy hxy t : NpArray ℚ) (sigma : ℚ),
        minkowski_wrapper delta rt (some a) (some gx) (some gy) (some hxx)
            (some hyy) (some hxy) (some t) (MaskArg.arr none) sigma =
          Except.error TopErr.coercionFailure) ∧
    (∀ (delta rt : ℚ → ℚ) (a gx gy hxx hyy hxy : NpArray ℚ)
        (ma? : Option (NpArray Bool)) (d : List ℚ) (sigma : ℚ),
        minkowski_wrapper delta rt (some a) (some gx) (some gy) (some hxx)
            (some hyy) (some hxy) (some ⟨[0], d⟩) (maskArgOf ma?) sigma =
          Except.error TopErr.allocationFailure) ∧
    (gradient_wrapper none = Except.error TopErr.coercionFailure) ∧
    (hessian_wrapper none = Except.error TopErr.coercionFailure) := by
  refine ⟨?_, ?_, ?_, ?_, ?_, ?_, ?_, ?_, ?_, ?_, ?_, ?_, ?_, ?_⟩
  · intro ker ft1? ft2? angle lv? e h
    cases ft1? with
    | none => rfl
    | some ft1 =>
    cases ft2? with
    | none => rfl
    | some ft2 =>
    cases lv? with
    | none => rfl
    | some lv =>
        rcases hz : pyZeros ((dim lv 0 : Int) - 1) with _ | z
        · simp only [rfft2_wrapper, hz]
        · rcases hk : ker (flatC ft1) (flatC ft2) (dim ft1 0) (dim ft1 1) angle
              (fun k => lv.data.getD k 0) z with _ | res
          · simp only [rfft2_wrapper, hz, hk]
          · exfalso
            simp only [rfft2_wrapper, hz, hk] at h
            cases h
  · intro ker ft1? ft2? kX kY kZ kv? e h
    cases ft1? with
    | none => rfl
    | some ft1 =>
    cases ft2? with
    | none => rfl
    | some ft2 =>
    cases kv? with
    | none => rfl
    | some kv =>
        rcases hz0 : pyZeros ((dim kv 0 : Int) - 1) with _ | z0
        · simp only [rfft3_wrapper, hz0]
        · rcases hz1 : pyZerosInt ((dim kv 0 : Int) - 1) with _ | z1
          · simp only [rfft3_wrapper, hz0, hz1]
          · rcases hk : ker (flatC ft1) (flatC ft2) (dim ft1 0) (dim ft1 1)
                (dim ft1 2) kX kY kZ (fun k => kv.data.getD k 0) z0 z1 with _ | res
            · simp only [rfft3_wrapper, hz0, hz1, hk]
            · exfalso
              simp only [rfft3_wrapper, hz0, hz1, hk] at h
              cases res
              cases h
  · intro ker ft2? angle lv?
    rfl
  · intro ft1 ft2 angle d n
    simp only [rfft2_wrapper]
    rw [show dim (⟨[n + 1], d⟩ : NpArray ℚ) 0 = n + 1 from rfl, pyZeros_succ n]
    rfl
  · intro ft1 ft2 kX kY kZ d n
    simp only [rfft3_wrapper]
    rw [show dim (⟨[n + 1], d⟩ : NpArray ℚ) 0 = n + 1 from rfl, pyZeros_succ n,
      pyZerosInt_succ n]
    rfl
  · intro ker ft1 ft2 angle d
    rfl
  · intro maskArg thresholds? sigma
    cases thresholds? <;> rfl
  · intro map? thresholds? sigma
    cases map? <;> cases thresholds? <;> rfl
  · intro m ma? d sigma
    cases ma? with
    | none =>
        show peakCount_run m none ⟨[0], d⟩ sigma = _
        simp only [peakCount_run]
        rw [show dim (⟨[0], d⟩ : NpArray ℚ) 0 = 0 from rfl]
        rfl
    | some msk =>
        show peakCount_run m (some msk) ⟨[0], d⟩ sigma = _
        simp only [peakCount_run]
        rw [show dim (⟨[0], d⟩ : NpArray ℚ) 0 = 0 from rfl]
        rfl
  · intro delta rt gx? gy? hxx? hyy? hxy? thresholds? maskArg sigma
    cases gx? <;> cases gy? <;> cases hxx? <;> cases hyy? <;> cases hxy? <;>
      cases thresholds? <;> rfl
  · intro delta rt a gx gy hxx hyy hxy t sigma
    rfl
  · intro delta rt a gx gy hxx hyy hxy ma? d sigma
    cases ma? with
    | none =>
        show minkowski_run delta rt a gx gy hxx hyy hxy ⟨[0], d⟩ none sigma = _
        simp only [minkowski_run]
        rw [show dim (⟨[0], d⟩ : NpArray ℚ) 0 = 0 from rfl]
        rfl
    | some msk =>
        show minkowski_run delta rt a gx gy hxx hyy hxy ⟨[0], d⟩ (some msk)
          sigma = _
        simp only [minkowski_run]
        rw [show dim (⟨[0], d⟩ : NpArray ℚ) 0 = 0 from rfl]
        rfl
  · rfl
  · rfl

/-- Witness for C6: the two release implications applied at a concretely
failing kernel call. -/
theorem C6_failure_behavior_witness :
    (rfft2_wrapper rfft2KernelFail (some ⟨[1, 1], [⟨1, 0⟩]⟩)
        (some ⟨[1, 1], [⟨1, 0⟩]⟩) 1 (some ⟨[2], [0, 1]⟩)).2.freed =
      (rfft2_wrapper rfft2KernelFail (some ⟨[1, 1], [⟨1, 0⟩]⟩)
        (some ⟨[1, 1], [⟨1, 0⟩]⟩) 1 (some ⟨[2], [0, 1]⟩)).2.allocated ∧
    (rfft3_wrapper rfft3KernelFail (some ⟨[1, 1, 1], [⟨1, 0⟩]⟩)
        (some ⟨[1, 1, 1], [⟨1, 0⟩]⟩) 1 1 1 (some ⟨[2], [0, 1]⟩)).2.freed =
      (rfft3_wrapper rfft3KernelFail (some ⟨[1, 1, 1], [⟨1, 0⟩]⟩)
        (some ⟨[1, 1, 1], [⟨1, 0⟩]⟩) 1 1 1 (some ⟨[2], [0, 1]⟩)).2.allocated := by
  constructor
  · exact C6_failure_behavior.1 rfft2KernelFail (some ⟨[1, 1], [⟨1, 0⟩]⟩)
      (some ⟨[1, 1], [⟨1, 0⟩]⟩) 1 (some ⟨[2], [0, 1]⟩) TopErr.kernelFailure
      (by decide)
  · exact C6_failure_behavior.2.1 rfft3KernelFail (some ⟨[1, 1, 1], [⟨1, 0⟩]⟩)
      (some ⟨[1, 1, 1], [⟨1, 0⟩]⟩) 1 1 1 (some ⟨[2], [0, 1]⟩)
      TopErr.kernelFailure (by decide)

theorem peakCount_run_getD {m : NpArray ℚ} {msk : Option (NpArray Bool)}
    {t : NpArray ℚ} {sigma : ℚ} {out : List ℚ} (b : Nat)
    (h : peakCount_run m msk t sigma = Except.ok out) (hb : b < out.length) :
    out.getD b 1 =
      (peakBinCount (at2fn m (dim m 0)) (maskValid (peakMaskFn msk (dim m 0)))
        (dim m 0) sigma (fun k => t.data.getD k 0) b : ℚ) := by
  rcases hz : pyZeros ((dim t 0 : Int) - 1) with _ | z
  · simp only [peakCount_run, hz] at h
    cases h
  · simp only [peakCount_run, hz, Except.ok.injEq] at h
    rw [← h] at hb ⊢
    simp only [peak_count] at hb ⊢
    rw [length_mapFrom] at hb
    rw [getD_mapFrom _ 0 b z 0 1 hb, pyZeros_eq hz, getD_replicate_zero]
    simp

theorem minkowski_run_getD {delta rt : ℚ → ℚ}
    {a gx gy hxx hyy hxy t : NpArray ℚ} {msk : Option (NpArray Bool)}
    {sigma : ℚ} {out : List ℚ × List ℚ × List ℚ} (b : Nat)
    (h : minkowski_run delta rt a gx gy hxx hyy hxy t msk sigma = Except.ok out)
    (hb : b < out.1.length) :
    out.1.getD b 1 =
      (minkV0Count (at2fn a (dim a 0))
          (maskValid (peakMaskFn msk (dim a 0))) (dim a 0) sigma
          (fun k => t.data.getD k 0) b : ℚ) /
        (totValid (maskValid (peakMaskFn msk (dim a 0))) (dim a 0) : ℚ) ∧
    out.2.1.getD b 1 =
      minkV1Sum (at2fn a (dim a 0)) (at2fn gx (dim a 0)) (at2fn gy (dim a 0))
        (maskValid (peakMaskFn msk (dim a 0))) (dim a 0) sigma delta rt
        (fun k => t.data.getD k 0) b ∧
    out.2.2.getD b 1 =
      minkV2Sum (at2fn a (dim a 0)) (at2fn gx (dim a 0)) (at2fn gy (dim a 0))
        (at2fn hxx (dim a 0)) (at2fn hyy (dim a 0)) (at2fn hxy (dim a 0))
        (maskValid (peakMaskFn msk (dim a 0))) (dim a 0) sigma delta
        (fun k => t.data.getD k 0) b := by
  rcases hz : pyZeros ((dim t 0 : Int) - 1) with _ | z
  · simp only [minkowski_run, hz] at h
    cases h
  · simp only [minkowski_run, hz, Except.ok.injEq] at h
    rw [← h] at hb ⊢
    simp only [minkowski_functionals] at hb ⊢
    rw [length_mapFrom] at hb
    refine ⟨?_, ?_, ?_⟩ <;>
      rw [getD_mapFrom _ 0 b z 0 1 hb, pyZeros_eq hz, getD_replicate_zero] <;>
      simp

/-- C7: every statistic vector is zero-filled before accumulation, so each
returned bin holds exactly its accumulated contribution, and a bin receiving
no contribution (no peak, no valid excursion sample, no contributing
Fourier mode) holds exactly zero in the returned output. -/
theorem C7_zero_initialized_bins :
    (∀ (m : NpArray ℚ) (ma? : Option (NpArray Bool)) (t : NpArray ℚ)
        (sigma : ℚ) (out : List ℚ) (b : Nat),
        peakCount_wrapper (some m) (maskArgOf ma?) (some t) sigma =
            Except.ok out →
        b < out.length →
        out.getD b 1 =
          (peakBinCount (at2fn m (dim m 0))
            (maskValid (peakMaskFn ma? (dim m 0))) (dim m 0) sigma
            (fun k => t.data.getD k 0) b : ℚ) ∧
        (peakBinCount (at2fn m (dim m 0))
            (maskValid (peakMaskFn ma? (dim m 0))) (dim m 0) sigma
            (fun k => t.data.getD k 0) b = 0 →
          out.getD b 1 = 0)) ∧
    (∀ (delta rt : ℚ → ℚ) (a gx gy hxx hyy hxy t : NpArray ℚ)
        (ma? : Option (NpArray Bool)) (sigma : ℚ)
        (out : List ℚ × List ℚ × List ℚ) (b : Nat),
        minkowski_wrapper delta rt (some a) (some gx) (some gy) (some hxx)
            (some hyy) (some hxy) (some t) (maskArgOf ma?) sigma =
            Except.ok out →
        b < out.1.length →
        (minkV0Count (at2fn a (dim a 0))
            (maskValid (peakMaskFn ma? (dim a 0))) (dim a 0) sigma
            (fun k => t.data.getD k 0) b = 0 →
          out.1.getD b 1 = 0) ∧
        (minkV1Sum (at2fn a (dim a 0)) (at2fn gx (dim a 0))
            (at2fn gy (dim a 0)) (maskValid (peakMaskFn ma? (dim a 0)))
            (dim a 0) sigma delta rt (fun k => t.data.getD k 0) b = 0 →
          out.2.1.getD b 1 = 0) ∧
        (minkV2Sum (at2fn a (dim a 0)) (at2fn gx (dim a 0))
            (at2fn gy (dim a 0)) (at2fn hxx (dim a 0)) (at2fn hyy (dim a 0))
            (at2fn hxy (dim a 0)) (maskValid (peakMaskFn ma? (dim a 0)))
            (dim a 0) sigma delta (fun k => t.data.getD k 0) b = 0 →
          out.2.2.getD b 1 = 0)) ∧
    (∀ (rt : ℚ → ℚ) (ft1 ft2 : NpArray QC) (angle : ℚ) (lv : NpArray ℚ)
        (out : List ℚ) (b : Nat),
        (rfft2_wrapper (azimuthal_rfft2 rt) (some ft1) (some ft2) angle
            (some lv)).1 = Except.ok out →
        b < out.length →
        out.getD b 1 =
          wsum2 rt (flatC ft1) (flatC ft2) (dim ft1 0) (dim ft1 1) angle
              (fun k => lv.data.getD k 0) b /
            wcount2 rt (dim ft1 0) (dim ft1 1) angle
              (fun k => lv.data.getD k 0) b ∧
        (wcount2 rt (dim ft1 0) (dim ft1 1) angle
            (fun k => lv.data.getD k 0) b = 0 →
          out.getD b 1 = 0)) ∧
    (∀ (rt : ℚ → ℚ) (ft1 ft2 : NpArray QC) (kX kY kZ : ℚ) (kv : NpArray ℚ)
        (out : List Int × List ℚ) (b : Nat),
        (rfft3_wrapper (azimuthal_rfft3 rt) (some ft1) (some ft2) kX kY kZ
            (some kv)).1 = Except.ok out →
        b < out.1.length →
        hits3 rt (dim ft1 0) (dim ft1 1) (dim ft1 2) kX kY kZ
            (fun k => kv.data.getD k 0) b = 0 →
        out.1.getD b 0 = 0 ∧ out.2.getD b 0 = 0) := by
  refine ⟨?_, ?_, ?_, ?_⟩
  · intro m ma? t sigma out b h hb
    cases ma? with
    | none =>
        have he := peakCount_run_getD b h hb
        exact ⟨he, fun h0 => by rw [he, h0]; simp⟩
    | some msk =>
        have he := peakCount_run_getD b h hb
        exact ⟨he, fun h0 => by rw [he, h0]; simp⟩
  · intro delta rt a gx gy hxx hyy hxy t ma? sigma out b h hb
    cases ma? with
    | none =>
        have he := minkowski_run_getD b h hb
        exact ⟨fun h0 => by rw [he.1, h0]; simp,
          fun h0 => he.2.1.trans h0, fun h0 => he.2.2.trans h0⟩
    | some msk =>
        have he := minkowski_run_getD b h hb
        exact ⟨fun h0 => by rw [he.1, h0]; simp,
          fun h0 => he.2.1.trans h0, fun h0 => he.2.2.trans h0⟩
  · intro rt ft1 ft2 angle lv out b h hb
    rcases hz : pyZeros ((dim lv 0 : Int) - 1) with _ | z
    · simp only [rfft2_wrapper, hz] at h
      cases h
    · simp only [rfft2_wrapper, hz, azimuthal_rfft2, Except.ok.injEq] at h
      rw [← h] at hb ⊢
      rw [length_mapFrom] at hb
      rw [getD_mapFrom _ 0 b z 0 1 hb, pyZeros_eq hz, getD_replicate_zero]
      constructor
      · simp
      · intro h0
        simp only [Nat.zero_add, zero_add, h0, div_zero]
  · intro rt ft1 ft2 kX kY kZ kv out b h hb hempty
    rcases hz0 : pyZeros ((dim kv 0 : Int) - 1) with _ | z0
    · simp only [rfft3_wrapper, hz0] at h
      cases h
    · rcases hz1 : pyZerosInt ((dim kv 0 : Int) - 1) with _ | z1
      · simp only [rfft3_wrapper, hz0, hz1] at h
        cases h
      · simp only [rfft3_wrapper, hz0, hz1, azimuthal_rfft3] at h
        by_cases hk : kX ≤ 0 ∨ kY ≤ 0 ∨ kZ ≤ 0
        · simp only [if_pos hk] at h
          cases h
        · simp only [if_neg hk, Except.ok.injEq] at h
          have hl0 := pyZeros_length hz0
          have hl1 := pyZerosInt_length hz1
          rw [← h] at hb ⊢
          rw [length_mapFrom] at hb
          have hb0 : b < z0.length := by omega
          constructor
          · show (mapFrom _ 0 z1).getD b 0 = 0
            rw [getD_mapFrom _ 0 b z1 0 0 hb, pyZerosInt_eq hz1,
              getD_replicate_zero_int]
            simp only [Nat.zero_add, zero_add, hempty, Nat.cast_zero]
          · show (mapFrom _ 0 z0).getD b 0 = 0
            rw [getD_mapFrom _ 0 b z0 0 0 hb0, pyZeros_eq hz0,
              getD_replicate_zero]
            simp only [Nat.zero_add, zero_add, hempty, Nat.cast_zero, div_zero]

/-- Witness for C7: concrete fields whose bins receive no contribution
report exactly zero. -/
theorem C7_zero_initialized_bins_witness :
    ([(1 : ℚ), 0].getD 1 1 = 0) ∧
    ([(0 : ℚ)].getD 0 1 = 0 ∧ [(0 : ℚ)].getD 0 1 = 0 ∧ [(0 : ℚ)].getD 0 1 = 0) ∧
    ([(0 : ℚ)].getD 0 1 = 0) ∧
    ([(0 : Int)].getD 0 0 = 0 ∧ [(0 : ℚ)].getD 0 0 = 0) := by
  refine ⟨?_, ?_, ?_, ?_⟩
  · exact (C7_zero_initialized_bins.1 ⟨[1, 1], [0]⟩ none ⟨[3], [0, 1, 2]⟩ 1
      [1, 0] 1 (by decide) (by decide)).2 (by decide)
  · have h := C7_zero_initialized_bins.2.1 (fun _ => 0) id ⟨[1, 1], [0]⟩
      ⟨[1, 1], [0]⟩ ⟨[1, 1], [0]⟩ ⟨[1, 1], [0]⟩ ⟨[1, 1], [0]⟩ ⟨[1, 1], [0]⟩
      ⟨[2], [2, 3]⟩ none 1 ([0], [0], [0]) 0 (by decide) (by decide)
    exact ⟨h.1 (by decide), h.2.1 (by decide), h.2.2 (by decide)⟩
  · exact (C7_zero_initialized_bins.2.2.1 id ⟨[1, 1], [⟨2, 0⟩]⟩
      ⟨[1, 1], [⟨2, 0⟩]⟩ 1 ⟨[2], [10, 20]⟩ [0] 0 (by decide) (by decide)).2
      (by decide)
  · exact C7_zero_initialized_bins.2.2.2 id ⟨[1, 1, 1], [⟨0, 0⟩]⟩
      ⟨[1, 1, 1], [⟨0, 0⟩]⟩ 1 1 1 ⟨[2], [10, 20]⟩ ([0], [0]) 0 (by decide)
      (by decide) (by decide)

/-- The all-false mask (no sample excluded) with the same shape and size as a
given double array. -/
def allFalseMask (a : NpArray ℚ) : NpArray Bool :=
  ⟨a.shape, List.replicate a.data.length false⟩

theorem maskValid_peakMaskFn_allFalse (a : NpArray ℚ) (N : Nat) :
    maskValid (peakMaskFn (some (allFalseMask a)) N) =
      maskValid (peakMaskFn none N) := by
  funext i j
  simp [maskValid, peakMaskFn, allFalseMask, getD_replicate_false]

/-- C8: a Py_None mask makes peakCount and minkowski behave exactly as an
all-false mask (every sample valid) of the map's size: the absent mask is
passed to the kernel as no mask, raises no error, and with valid remaining
arguments the call succeeds. -/
theorem C8_absent_mask_all_valid :
    (∀ (m t : NpArray ℚ) (sigma : ℚ),
        peakCount_wrapper (some m) MaskArg.pyNone (some t) sigma =
          peakCount_wrapper (some m) (MaskArg.arr (some (allFalseMask m)))
            (some t) sigma) ∧
    (∀ (delta rt : ℚ → ℚ) (a gx gy hxx hyy hxy t : NpArray ℚ) (sigma : ℚ),
        minkowski_wrapper delta rt (some a) (some gx) (some gy) (some hxx)
            (some hyy) (some hxy) (some t) MaskArg.pyNone sigma =
          minkowski_wrapper delta rt (some a) (some gx) (some gy) (some hxx)
            (some hyy) (some hxy) (some t)
            (MaskArg.arr (some (allFalseMask a))) sigma) ∧
    (∀ (m : NpArray ℚ) (tdata : List ℚ) (n : Nat) (sigma : ℚ),
        ∃ out, peakCount_wrapper (some m) MaskArg.pyNone
          (some ⟨[n + 1], tdata⟩) sigma = Except.ok out) := by
  refine ⟨?_, ?_, ?_⟩
  · intro m t sigma
    show peakCount_run m none t sigma = peakCount_run m (some (allFalseMask m)) t sigma
    simp only [peakCount_run, peak_count, maskValid_peakMaskFn_allFalse]
  · intro delta rt a gx gy hxx hyy hxy t sigma
    show minkowski_run delta rt a gx gy hxx hyy hxy t none sigma =
      minkowski_run delta rt a gx gy hxx hyy hxy t (some (allFalseMask a)) sigma
    simp only [minkowski_run, minkowski_functionals,
      maskValid_peakMaskFn_allFalse]
  · intro m tdata n sigma
    have h1 : ∃ out, peakCount_run m none ⟨[n + 1], tdata⟩ sigma =
        Except.ok out := by
      simp only [peakCount_run]
      rw [show dim (⟨[n + 1], tdata⟩ : NpArray ℚ) 0 = n + 1 from rfl,
        pyZeros_succ n]
      exact ⟨_, rfl⟩
    exact h1

/-- C9: no entry point reads or writes any module-level state: invoked
through the module, every entry point leaves the state unchanged, a second
invocation on identical inputs returns an identical output, and module
(re-)registration does not affect any output. -/
theorem C9_no_hidden_state :
    (∀ (s : ModuleState) (map? : Option (NpArray ℚ)) (maskArg : MaskArg)
        (thresholds? : Option (NpArray ℚ)) (sigma : ℚ),
        (peakCount_call s map? maskArg thresholds? sigma).2 = s ∧
        (peakCount_call ((peakCount_call s map? maskArg thresholds? sigma).2)
            map? maskArg thresholds? sigma).1 =
          (peakCount_call s map? maskArg thresholds? sigma).1 ∧
        (peakCount_call (init_topology s) map? maskArg thresholds? sigma).1 =
          (peakCount_call s map? maskArg thresholds? sigma).1) ∧
    (∀ (s : ModuleState) (map? : Option (NpArray ℚ)),
        (gradient_call s map?).2 = s ∧
        (gradient_call ((gradient_call s map?).2) map?).1 =
          (gradient_call s map?).1 ∧
        (gradient_call (init_topology s) map?).1 = (gradient_call s map?).1) ∧
    (∀ (s : ModuleState) (map? : Option (NpArray ℚ)),
        (hessian_call s map?).2 = s ∧
        (hessian_call ((hessian_call s map?).2) map?).1 =
          (hessian_call s map?).1 ∧
        (hessian_call (init_topology s) map?).1 = (hessian_call s map?).1) ∧
    (∀ (s : ModuleState) (delta rt : ℚ → ℚ)
        (map? gx? gy? hxx? hyy? hxy? thresholds? : Option (NpArray ℚ))
        (maskArg : MaskArg) (sigma : ℚ),
        (minkowski_call s delta rt map? gx? gy? hxx? hyy? hxy? thresholds?
            maskArg sigma).2 = s ∧
        (minkowski_call ((minkowski_call s delta rt map? gx? gy? hxx? hyy?
              hxy? thresholds? maskArg sigma).2) delta rt map? gx? gy? hxx?
            hyy? hxy? thresholds? maskArg sigma).1 =
          (minkowski_call s delta rt map? gx? gy? hxx? hyy? hxy? thresholds?
            maskArg sigma).1) ∧
    (∀ (s : ModuleState) (ker : Rfft2Kernel) (ft1? ft2? : Option (NpArray QC))
        (angle : ℚ) (lv? : Option (NpArray ℚ)),
        (rfft2_call s ker ft1? ft2? angle lv?).2 = s ∧
        (rfft2_call ((rfft2_call s ker ft1? ft2? angle lv?).2) ker ft1? ft2?
            angle lv?).1 = (rfft2_call s ker ft1? ft2? angle lv?).1) ∧
    (∀ (s : ModuleState) (ker : Rfft3Kernel) (ft1? ft2? : Option (NpArray QC))
        (kX kY kZ : ℚ) (kv? : Option (NpArray ℚ)),
        (rfft3_call s ker ft1? ft2? kX kY kZ kv?).2 = s ∧
        (rfft3_call ((rfft3_call s ker ft1? ft2? kX kY kZ kv?).2) ker ft1?
            ft2? kX kY kZ kv?).1 = (rfft3_call s ker ft1? ft2? kX kY kZ kv?).1) := by
  refine ⟨?_, ?_, ?_, ?_, ?_, ?_⟩
  · intro s map? maskArg thresholds? sigma
    exact ⟨rfl, rfl, rfl⟩
  · intro s map?
    exact ⟨rfl, rfl, rfl⟩
  · intro s map?
    exact ⟨rfl, rfl, rfl⟩
  · intro s delta rt map? gx? gy? hxx? hyy? hxy? thresholds? maskArg sigma
    exact ⟨rfl, rfl⟩
  · intro s ker ft1? ft2? angle lv?
    exact ⟨rfl, rfl⟩
  · intro s ker ft1? ft2? kX kY kZ kv?
    exact ⟨rfl, rfl⟩

/-- C10: peakCount, gradient, hessian and minkowski take the grid side
exclusively from the first dimension of the map: replacing every other shape
entry (in particular the second dimension) leaves the result unchanged, a
non-square 2D map is accepted without error, and the outputs are those of a
square grid of side equal to the first dimension. -/
theorem C10_side_from_first_dim_only :
    (∀ (d0 : Nat) (rest rest2 : List Nat) (data : List ℚ) (maskArg : MaskArg)
        (thresholds? : Option (NpArray ℚ)) (sigma : ℚ),
        peakCount_wrapper (some ⟨d0 :: rest, data⟩) maskArg thresholds? sigma =
          peakCount_wrapper (some ⟨d0 :: rest2, data⟩) maskArg thresholds?
            sigma) ∧
    (∀ (d0 : Nat) (rest rest2 : List Nat) (data : List ℚ),
        gradient_wrapper (some ⟨d0 :: rest, data⟩) =
          gradient_wrapper (some ⟨d0 :: rest2, data⟩)) ∧
    (∀ (d0 : Nat) (rest rest2 : List Nat) (data : List ℚ),
        hessian_wrapper (some ⟨d0 :: rest, data⟩) =
          hessian_wrapper (some ⟨d0 :: rest2, data⟩)) ∧
    (∀ (d0 : Nat) (rest rest2 : List Nat) (data : List ℚ) (delta rt : ℚ → ℚ)
        (gx? gy? hxx? hyy? hxy? thresholds? : Option (NpArray ℚ))
        (maskArg : MaskArg) (sigma : ℚ),
        minkowski_wrapper delta rt (some ⟨d0 :: rest, data⟩) gx? gy? hxx? hyy?
            hxy? thresholds? maskArg sigma =
          minkowski_wrapper delta rt (some ⟨d0 :: rest2, data⟩) gx? gy? hxx?
            hyy? hxy? thresholds? maskArg sigma) ∧
    (∀ (d0 : Nat) (rest : List Nat) (data : List ℚ),
        ∃ g, gradient_wrapper (some ⟨d0 :: rest, data⟩) = Except.ok g ∧
          g.1.shape = [d0, d0] ∧ g.2.shape = [d0, d0]) ∧
    (∀ (d0 : Nat) (rest : List Nat) (data tdata : List ℚ) (n : Nat)
        (sigma : ℚ),
        ∃ out, peakCount_wrapper (some ⟨d0 :: rest, data⟩) MaskArg.pyNone
          (some ⟨[n + 1], tdata⟩) sigma = Except.ok out) := by
  refine ⟨?_, ?_, ?_, ?_, ?_, ?_⟩
  · intro d0 rest rest2 data maskArg thresholds? sigma
    cases thresholds? with
    | none => rfl
    | some t =>
        cases maskArg with
        | pyNone => rfl
        | arr mm => cases mm <;> rfl
  · intro d0 rest rest2 data
    rfl
  · intro d0 rest rest2 data
    rfl
  · intro d0 rest rest2 data delta rt gx? gy? hxx? hyy? hxy? thresholds? maskArg sigma
    cases gx? <;> cases gy? <;> cases hxx? <;> cases hyy? <;> cases hxy? <;>
      cases thresholds? <;> rfl
  · intro d0 rest data
    exact ⟨_, rfl, rfl, rfl⟩
  · intro d0 rest data tdata n sigma
    have h1 : ∃ out, peakCount_run ⟨d0 :: rest, data⟩ none ⟨[n + 1], tdata⟩
        sigma = Except.ok out := by
      simp only [peakCount_run]
      rw [show dim (⟨[n + 1], tdata⟩ : NpArray ℚ) 0 = n + 1 from rfl,
        pyZeros_succ n]
      exact ⟨_, rfl⟩
    exact h1
